import Mathlib

/-!
Verification of the air-quality scoring core of the AIrChat repository:
EPA AQI breakpoint interpolation (`svc/aqi_epa.py`), NowCast smoothing
(`svc/nowcast.py`) and station selection (`svc/station_selector.py`).
Python floats are modelled as rationals, Python `round` (banker's
rounding) as `pyRound`, and fallible calls as `Except`/`Option` values.
-/

set_option maxRecDepth 8000

namespace AirChat

/-- Python `round(x)`: round half to even, returning an integer. -/
def pyRound (x : ℚ) : ℤ :=
  let f := ⌊x⌋
  let frac := x - f
  if frac < 1/2 then f
  else if 1/2 < frac then f + 1
  else if f % 2 = 0 then f else f + 1

/-- Python `round(x, 1)`: round to one decimal digit, half to even. -/
def round1 (x : ℚ) : ℚ := (pyRound (x * 10) : ℚ) / 10

/-- One row of an EPA breakpoint table:
`(concentration_low, concentration_high, aqi_low, aqi_high, category, color)`. -/
structure BreakpointRow where
  bpLow : ℚ
  bpHigh : ℚ
  iLow : ℤ
  iHigh : ℤ
  category : String
  color : String
deriving DecidableEq, Repr

/-- `PM25_BREAKPOINTS` from `svc/aqi_epa.py`, verbatim. -/
def PM25_BREAKPOINTS : List BreakpointRow :=
  [⟨0, 12, 0, 50, "Good", "#00E400"⟩,
   ⟨12.1, 35.4, 51, 100, "Moderate", "#FFFF00"⟩,
   ⟨35.5, 55.4, 101, 150, "Unhealthy for Sensitive Groups", "#FF7E00"⟩,
   ⟨55.5, 150.4, 151, 200, "Unhealthy", "#FF0000"⟩,
   ⟨150.5, 250.4, 201, 300, "Very Unhealthy", "#8F3F97"⟩,
   ⟨250.5, 350.4, 301, 400, "Hazardous", "#7E0023"⟩,
   ⟨350.5, 500.4, 401, 500, "Hazardous", "#7E0023"⟩]

/-- `PM10_BREAKPOINTS` from `svc/aqi_epa.py`, verbatim. -/
def PM10_BREAKPOINTS : List BreakpointRow :=
  [⟨0, 54, 0, 50, "Good", "#00E400"⟩,
   ⟨55, 154, 51, 100, "Moderate", "#FFFF00"⟩,
   ⟨155, 254, 101, 150, "Unhealthy for Sensitive Groups", "#FF7E00"⟩,
   ⟨255, 354, 151, 200, "Unhealthy", "#FF0000"⟩,
   ⟨355, 424, 201, 300, "Very Unhealthy", "#8F3F97"⟩,
   ⟨425, 504, 301, 400, "Hazardous", "#7E0023"⟩,
   ⟨505, 604, 401, 500, "Hazardous", "#7E0023"⟩]

/-- `O3_8HR_BREAKPOINTS` from `svc/aqi_epa.py`, verbatim. -/
def O3_8HR_BREAKPOINTS : List BreakpointRow :=
  [⟨0, 0.054, 0, 50, "Good", "#00E400"⟩,
   ⟨0.055, 0.070, 51, 100, "Moderate", "#FFFF00"⟩,
   ⟨0.071, 0.085, 101, 150, "Unhealthy for Sensitive Groups", "#FF7E00"⟩,
   ⟨0.086, 0.105, 151, 200, "Unhealthy", "#FF0000"⟩,
   ⟨0.106, 0.200, 201, 300, "Very Unhealthy", "#8F3F97"⟩]

/-- `NO2_BREAKPOINTS` from `svc/aqi_epa.py`, verbatim. -/
def NO2_BREAKPOINTS : List BreakpointRow :=
  [⟨0, 53, 0, 50, "Good", "#00E400"⟩,
   ⟨54, 100, 51, 100, "Moderate", "#FFFF00"⟩,
   ⟨101, 360, 101, 150, "Unhealthy for Sensitive Groups", "#FF7E00"⟩,
   ⟨361, 649, 151, 200, "Unhealthy", "#FF0000"⟩,
   ⟨650, 1249, 201, 300, "Very Unhealthy", "#8F3F97"⟩,
   ⟨1250, 1649, 301, 400, "Hazardous", "#7E0023"⟩,
   ⟨1650, 2049, 401, 500, "Hazardous", "#7E0023"⟩]

/-- The record returned by `calculate_aqi`. -/
structure AqiResult where
  aqi : ℤ
  category : String
  color : String
  concentration : ℚ
  pollutant : String
deriving DecidableEq, Repr

/-- `raise ValueError(f"Unknown pollutant: ...")` in `calculate_aqi`. -/
inductive AqiError where
  | unknownPollutant (p : String)
deriving DecidableEq, Repr

/-- ASCII lower-casing of one character, as Python `str.lower` acts on the
ASCII identifiers used by this code base. -/
def lowerChar (c : Char) : Char :=
  if 'A' ≤ c ∧ c ≤ 'Z' then Char.ofNat (c.toNat + 32) else c

/-- ASCII upper-casing of one character, as Python `str.upper` acts on the
ASCII identifiers used by this code base. -/
def upperChar (c : Char) : Char :=
  if 'a' ≤ c ∧ c ≤ 'z' then Char.ofNat (c.toNat - 32) else c

/-- Python `s.lower()` restricted to ASCII strings. -/
def strLower (s : String) : String := ⟨s.data.map lowerChar⟩

/-- Python `s.upper()` restricted to ASCII strings. -/
def strUpper (s : String) : String := ⟨s.data.map upperChar⟩

instance {ε α : Type} [DecidableEq ε] [DecidableEq α] :
    DecidableEq (Except ε α) := fun a b =>
  match a, b with
  | .error e, .error f =>
      if h : e = f then .isTrue (by rw [h]) else .isFalse (by simp [h])
  | .error _, .ok _ => .isFalse (by simp)
  | .ok _, .error _ => .isFalse (by simp)
  | .ok x, .ok y =>
      if h : x = y then .isTrue (by rw [h]) else .isFalse (by simp [h])

/-- The `if pollutant.lower() == ...` chain of `calculate_aqi` selecting
the breakpoint table; `none` corresponds to the `raise` branch. -/
def breakpointsFor (pollutant : String) : Option (List BreakpointRow) :=
  if strLower pollutant = "pm25" then some PM25_BREAKPOINTS
  else if strLower pollutant = "pm10" then some PM10_BREAKPOINTS
  else if strLower pollutant = "o3" then some O3_8HR_BREAKPOINTS
  else if strLower pollutant = "no2" then some NO2_BREAKPOINTS
  else none

/-- The `for bp_low, bp_high, ... in breakpoints: if bp_low <= concentration
<= bp_high` loop of `calculate_aqi`: first row whose closed interval
contains `c`, `none` when the loop falls through. -/
def findBreakpoint (c : ℚ) : List BreakpointRow → Option BreakpointRow
  | [] => none
  | r :: rs => if r.bpLow ≤ c ∧ c ≤ r.bpHigh then some r else findBreakpoint c rs

/-- `calculate_aqi` from `svc/aqi_epa.py`: clamp negative concentration to 0,
look up the containing breakpoint row and interpolate, otherwise return the
saturated hazardous record. -/
def calculate_aqi (concentration : ℚ) (pollutant : String) :
    Except AqiError AqiResult :=
  match breakpointsFor pollutant with
  | none => .error (.unknownPollutant pollutant)
  | some breakpoints =>
    let c := if concentration < 0 then 0 else concentration
    match findBreakpoint c breakpoints with
    | some r =>
        .ok { aqi := pyRound ((((r.iHigh : ℚ) - r.iLow) / (r.bpHigh - r.bpLow))
                      * (c - r.bpLow) + r.iLow),
              category := r.category, color := r.color,
              concentration := round1 c, pollutant := strUpper pollutant }
    | none =>
        .ok { aqi := 500, category := "Hazardous", color := "#7E0023",
              concentration := round1 c, pollutant := strUpper pollutant }

/-- Python `l[-n:]`: the suffix of the most recent `n` entries. -/
def lastN (n : ℕ) (l : List (Option ℚ)) : List (Option ℚ) :=
  l.drop (l.length - n)

/-- Number of non-`None` entries, as `sum(1 for v in ... if v is not None)`. -/
def validCount (l : List (Option ℚ)) : ℕ := (l.filterMap id).length

/-- Python `min` over a nonempty list (0 as the unused default). -/
def listMin : List ℚ → ℚ
  | [] => 0
  | x :: xs => xs.foldl min x

/-- Python `max` over a nonempty list (0 as the unused default). -/
def listMax : List ℚ → ℚ
  | [] => 0
  | x :: xs => xs.foldl max x

/-- The `for i, value in enumerate(values)` accumulation loop of
`calculate_nowcast_pm25`: numerator and denominator of the weighted
average, where position `i` (0 = oldest in the window) has weight `w^i`
and missing readings contribute nothing. -/
def weightedSums (w : ℚ) (values : List (Option ℚ)) : ℚ × ℚ :=
  values.enum.foldl
    (fun acc iv =>
      match iv.2 with
      | some v => (acc.1 + v * w ^ iv.1, acc.2 + w ^ iv.1)
      | none => acc)
    (0, 0)

/-- `calculate_nowcast_pm25` from `svc/nowcast.py`. -/
def calculate_nowcast_pm25 (hourly_values : List (Option ℚ)) : Option ℚ :=
  if hourly_values.length < 2 then none
  else
    let values := lastN 12 hourly_values
    let recent_three := lastN 3 values
    let valid_recent := validCount recent_three
    if valid_recent < 2 then none
    else
      let valid_values := values.filterMap id
      if valid_values.length < 2 then none
      else
        let min_val := listMin valid_values
        let max_val := listMax valid_values
        let w0 := if 0 < max_val then min_val / max_val else 1
        let w := if w0 < 1/2 then 1/2 else w0
        let sums := weightedSums w values
        if sums.2 = 0 then none
        else some (round1 (sums.1 / sums.2))

/-- `get_dominant_pollutant` from `svc/aqi_epa.py`; an entry's data is
`none` when the Python dict value is falsy or lacks an `aqi` key, and the
association list keeps the dict's iteration order. -/
def get_dominant_pollutant (pollutants : List (String × Option ℤ)) :
    Option String × Option ℤ :=
  if pollutants.isEmpty then (none, none)
  else
    let r := pollutants.foldl
      (fun (acc : ℤ × Option String × Option ℤ) e =>
        match e.2 with
        | some a => if acc.1 < a then (a, some e.1, some a) else acc
        | none => acc)
      (-1, none, none)
    (r.2.1, r.2.2)

/-- `POLLUTANT_PRIORITY` from `svc/station_selector.py`, verbatim. -/
def POLLUTANT_PRIORITY : List (String × ℕ) :=
  [("pm25", 10), ("pm10", 9), ("o3", 8), ("no2", 7), ("so2", 6), ("co", 5)]

/-- The `lastUpdated` field of a station: absent, present but rejected by
`datetime.fromisoformat`, or parsed to an absolute time (epoch seconds). -/
inductive TimestampField where
  | missing
  | unparsable
  | parsed (epochSeconds : ℚ)
deriving DecidableEq, Repr

/-- A station record as consumed by `calculate_station_score`: the
`name` entries of its `parameters` list and its `lastUpdated` value. -/
structure Station where
  parameters : List String
  lastUpdated : TimestampField
deriving DecidableEq, Repr

/-- The `available_pollutants` list computed at the top of
`calculate_station_score`: the lower-cased parameter names recognized by
`POLLUTANT_PRIORITY`. -/
def availablePollutants (station : Station) : List String :=
  (station.parameters.map strLower).filter
    (fun n => (POLLUTANT_PRIORITY.lookup n).isSome)

/-- `calculate_station_score` from `svc/station_selector.py`; `now` is the
current time in epoch seconds. -/
def calculate_station_score (station : Station) (now : ℚ) : ℕ × ℕ × ℚ :=
  let available_pollutants := availablePollutants station
  if available_pollutants.isEmpty then (0, 0, 0)
  else
    let primary_score :=
      (available_pollutants.map
        (fun p => (POLLUTANT_PRIORITY.lookup p).getD 0)).foldl max 0
    let secondary_score := available_pollutants.length
    let tertiary_score :=
      match station.lastUpdated with
      | .parsed t => max 0 (24 - (now - t) / 3600)
      | _ => 0
    (primary_score, secondary_score, tertiary_score)

/-- Strict lexicographic comparison of station scores: Python's `<` on the
`(primary, secondary, tertiary)` tuples. -/
def scoreLt (a b : ℕ × ℕ × ℚ) : Prop :=
  a.1 < b.1 ∨ (a.1 = b.1 ∧ (a.2.1 < b.2.1 ∨ (a.2.1 = b.2.1 ∧ a.2.2 < b.2.2)))

instance (a b : ℕ × ℕ × ℚ) : Decidable (scoreLt a b) := by
  unfold scoreLt; infer_instance

/-- One step of Python's stable sort in descending order: insert an
element after every earlier element whose key is at least as large. -/
def insertDesc (x : (ℕ × ℕ × ℚ) × Station) :
    List ((ℕ × ℕ × ℚ) × Station) → List ((ℕ × ℕ × ℚ) × Station)
  | [] => [x]
  | y :: ys => if scoreLt y.1 x.1 then x :: y :: ys else y :: insertDesc x ys

/-- `scored_stations.sort(key=lambda x: x[0], reverse=True)`: a stable
sort in descending key order, built by inserting elements left to right. -/
def sortDesc (l : List ((ℕ × ℕ × ℚ) × Station)) :
    List ((ℕ × ℕ × ℚ) × Station) :=
  l.foldl (fun acc x => insertDesc x acc) []

/-- `select_best_station` from `svc/station_selector.py`. -/
def select_best_station (stations : List Station) (now : ℚ) : Option Station :=
  if stations.isEmpty then none
  else
    let scored_stations :=
      stations.map (fun s => (calculate_station_score s now, s))
    (sortDesc scored_stations).head?.map (·.2)

/-- One comparison step of the spec's descending selection: keep the
current best unless the candidate scores strictly higher. -/
def stepSel (now : ℚ) (best c : Station) : Station :=
  if scoreLt (calculate_station_score best now) (calculate_station_score c now)
  then c else best

/-- Modelled from the spec's words for §4.5 `selectBest`: the first
candidate in input order whose `(primary, secondary, tertiary)` score is
lexicographically maximal (a candidate replaces the running best only when
it scores strictly higher). Used to compare against the sort-based
`select_best_station`. -/
def specSelectBest (stations : List Station) (now : ℚ) : Option Station :=
  match stations with
  | [] => none
  | s :: rest => some (rest.foldl (stepSel now) s)

/-- Weak lexicographic comparison of station scores. -/
def scoreLe (a b : ℕ × ℕ × ℚ) : Prop := scoreLt a b ∨ a = b

/-- The pollutant-independent part of an `AqiResult`: everything except
the upper-cased pollutant label (`none` for the error outcome). -/
def resultCore : Except AqiError AqiResult → Option (ℤ × String × String × ℚ)
  | .ok r => some (r.aqi, r.category, r.color, r.concentration)
  | .error _ => none

/-- Default row used with `List.getD` when indexing a breakpoint table. -/
def dfltRow : BreakpointRow := ⟨0, 0, 0, 0, "", ""⟩

/-- A breakpoint row whose AQI range sits inside `[0, 500]` and whose
concentration interval is nondegenerate. -/
def rowValid (r : BreakpointRow) : Prop :=
  0 ≤ r.iLow ∧ r.iLow ≤ r.iHigh ∧ r.iHigh ≤ 500 ∧ r.bpLow < r.bpHigh

instance (r : BreakpointRow) : Decidable (rowValid r) := by
  unfold rowValid; infer_instance

/-- Banker's rounding never goes below an integer lower bound of its input. -/
theorem le_pyRound {a : ℤ} {x : ℚ} (h : (a : ℚ) ≤ x) : a ≤ pyRound x := by
  have hf : a ≤ ⌊x⌋ := Int.le_floor.mpr h
  simp only [pyRound]
  split_ifs <;> omega

/-- Banker's rounding never exceeds an integer upper bound of its input. -/
theorem pyRound_le {b : ℤ} {x : ℚ} (h : x ≤ (b : ℚ)) : pyRound x ≤ b := by
  have hfl : ⌊x⌋ ≤ b := by
    have := Int.floor_le_floor (α := ℚ) h
    simpa using this
  simp only [pyRound]
  split_ifs with h1 h2 h3
  · exact hfl
  all_goals {
    have hge : (1 : ℚ) / 2 ≤ x - ⌊x⌋ := by push_neg at h1; linarith
    have hx : (⌊x⌋ : ℚ) < (b : ℚ) := by
      have hle : (⌊x⌋ : ℚ) + 1 / 2 ≤ x := by linarith
      linarith
    have : ⌊x⌋ < b := by exact_mod_cast hx
    omega }

/-- Banker's rounding of an integer is that integer. -/
theorem pyRound_intCast (k : ℤ) : pyRound (k : ℚ) = k := by
  unfold pyRound
  rw [Int.floor_intCast]
  norm_num

/-- `findBreakpoint` returns `none` exactly when no row's closed interval
contains the concentration. -/
theorem findBreakpoint_eq_none_iff (c : ℚ) (rows : List BreakpointRow) :
    findBreakpoint c rows = none ↔
      ∀ r ∈ rows, ¬(r.bpLow ≤ c ∧ c ≤ r.bpHigh) := by
  induction rows with
  | nil => simp [findBreakpoint]
  | cons r rs ih =>
      by_cases h : r.bpLow ≤ c ∧ c ≤ r.bpHigh
      · simp [findBreakpoint, h]
      · simp only [findBreakpoint, if_neg h, List.mem_cons]
        constructor
        · intro hn t ht
          rcases ht with rfl | ht
          · exact h
          · exact (ih.mp hn) t ht
        · intro hall
          exact ih.mpr fun t ht => hall t (Or.inr ht)

/-- A row returned by `findBreakpoint` is in the table and contains the
concentration. -/
theorem findBreakpoint_eq_some {c : ℚ} {rows : List BreakpointRow}
    {r : BreakpointRow} (h : findBreakpoint c rows = some r) :
    r ∈ rows ∧ r.bpLow ≤ c ∧ c ≤ r.bpHigh := by
  induction rows with
  | nil => simp [findBreakpoint] at h
  | cons t ts ih =>
      by_cases ht : t.bpLow ≤ c ∧ c ≤ t.bpHigh
      · rw [findBreakpoint, if_pos ht] at h
        obtain rfl := Option.some.inj h
        exact ⟨List.mem_cons_self _ _, ht⟩
      · rw [findBreakpoint, if_neg ht] at h
        obtain ⟨hm, hc⟩ := ih h
        exact ⟨List.mem_cons_of_mem _ hm, hc⟩

/-- Every row of every published table has its AQI range inside `[0, 500]`
and a nondegenerate concentration interval. -/
theorem tables_rowValid :
    (∀ r ∈ PM25_BREAKPOINTS, rowValid r) ∧ (∀ r ∈ PM10_BREAKPOINTS, rowValid r) ∧
    (∀ r ∈ O3_8HR_BREAKPOINTS, rowValid r) ∧ (∀ r ∈ NO2_BREAKPOINTS, rowValid r) := by
  with_unfolding_all decide

/-- Any table produced by `breakpointsFor` consists of valid rows. -/
theorem breakpointsFor_rowValid {p : String} {bps : List BreakpointRow}
    (h : breakpointsFor p = some bps) : ∀ r ∈ bps, rowValid r := by
  unfold breakpointsFor at h
  split_ifs at h <;> obtain rfl := Option.some.inj h <;>
    first
    | exact tables_rowValid.1
    | exact tables_rowValid.2.1
    | exact tables_rowValid.2.2.1
    | exact tables_rowValid.2.2.2

/-- The EPA linear-interpolation value stays inside the row's AQI range. -/
theorem interp_bounds {r : BreakpointRow} (hr : rowValid r) {c : ℚ}
    (h1 : r.bpLow ≤ c) (h2 : c ≤ r.bpHigh) :
    (r.iLow : ℚ) ≤ (((r.iHigh : ℚ) - r.iLow) / (r.bpHigh - r.bpLow)) * (c - r.bpLow) + r.iLow ∧
    (((r.iHigh : ℚ) - r.iLow) / (r.bpHigh - r.bpLow)) * (c - r.bpLow) + r.iLow ≤ (r.iHigh : ℚ) := by
  obtain ⟨_, hio, _, hbp⟩ := hr
  have hd : (0 : ℚ) < r.bpHigh - r.bpLow := by linarith
  have hs : (0 : ℚ) ≤ ((r.iHigh : ℚ) - r.iLow) / (r.bpHigh - r.bpLow) := by
    apply div_nonneg _ (le_of_lt hd)
    have : (r.iLow : ℚ) ≤ (r.iHigh : ℚ) := by exact_mod_cast hio
    linarith
  constructor
  · nlinarith
  · have hstep : (((r.iHigh : ℚ) - r.iLow) / (r.bpHigh - r.bpLow)) * (c - r.bpLow)
        ≤ (((r.iHigh : ℚ) - r.iLow) / (r.bpHigh - r.bpLow)) * (r.bpHigh - r.bpLow) := by
      apply mul_le_mul_of_nonneg_left _ hs
      linarith
    have hcancel : (((r.iHigh : ℚ) - r.iLow) / (r.bpHigh - r.bpLow)) * (r.bpHigh - r.bpLow)
        = (r.iHigh : ℚ) - r.iLow := div_mul_cancel₀ _ (ne_of_gt hd)
    linarith [hstep, hcancel.le, hcancel.ge]

/-- Lower-casing fixes the canonical identifier `pm25`. -/
theorem strLower_pm25 : strLower "pm25" = "pm25" := by decide

/-- C2: for every pollutant's breakpoint table and every pair of
consecutive rows, the rows are contiguous in both spaces:
`concentrationHigh` immediately precedes `concentrationLow` of the next
row (at the table's resolution: 0.1 µg/m³ for PM2.5, 1 for PM10 and NO2,
0.001 ppm for O3) and `aqiHigh + 1 = aqiLow` of the next row. -/
theorem breakpoint_tables_contiguous :
    ∀ t ∈ [(PM25_BREAKPOINTS, (1 : ℚ)/10), (PM10_BREAKPOINTS, (1 : ℚ)),
           (O3_8HR_BREAKPOINTS, (1 : ℚ)/1000), (NO2_BREAKPOINTS, (1 : ℚ))],
    ∀ i, i + 1 < t.1.length →
      (t.1.getD i dfltRow).bpHigh + t.2 = (t.1.getD (i+1) dfltRow).bpLow ∧
      (t.1.getD i dfltRow).iHigh + 1 = (t.1.getD (i+1) dfltRow).iLow := by
  intro t ht
  fin_cases ht <;>
    · intro i hi
      norm_num [PM25_BREAKPOINTS, PM10_BREAKPOINTS, O3_8HR_BREAKPOINTS,
        NO2_BREAKPOINTS] at hi
      have hub : i ≤ 5 := by omega
      interval_cases i <;>
        first
        | omega
        | norm_num [PM25_BREAKPOINTS, PM10_BREAKPOINTS, O3_8HR_BREAKPOINTS,
            NO2_BREAKPOINTS, List.getD]

/-- C2 witness: the first two PM2.5 rows abut at resolution 0.1 and chain
50 → 51 in AQI space. -/
theorem breakpoint_tables_contiguous_witness :
    (PM25_BREAKPOINTS.getD 0 dfltRow).bpHigh + (1 : ℚ)/10
        = (PM25_BREAKPOINTS.getD 1 dfltRow).bpLow ∧
    (PM25_BREAKPOINTS.getD 0 dfltRow).iHigh + 1
        = (PM25_BREAKPOINTS.getD 1 dfltRow).iLow :=
  breakpoint_tables_contiguous (PM25_BREAKPOINTS, (1 : ℚ)/10)
    (by simp) 0 (by norm_num [PM25_BREAKPOINTS])

/-- C7: whenever `calculate_aqi` returns a result (which it does for every
known pollutant and every concentration), its `aqi` field lies in `[0, 500]`. -/
theorem calculate_aqi_in_range (c : ℚ) (p : String) (r : AqiResult)
    (h : calculate_aqi c p = .ok r) : 0 ≤ r.aqi ∧ r.aqi ≤ 500 := by
  rcases hb : breakpointsFor p with _ | bps
  · rw [calculate_aqi, hb] at h
    exact absurd h (by simp)
  · rw [calculate_aqi, hb] at h
    dsimp only at h
    rcases hf : findBreakpoint (if c < 0 then 0 else c) bps with _ | row
    · rw [hf] at h
      simp only [Except.ok.injEq] at h
      subst h
      exact ⟨by norm_num, by norm_num⟩

    · rw [hf] at h
      simp only [Except.ok.injEq] at h
      subst h
      dsimp only
      obtain ⟨hmem, h1, h2⟩ := findBreakpoint_eq_some hf
      have hv := breakpointsFor_rowValid hb row hmem
      obtain ⟨hlo, hhi⟩ := interp_bounds hv h1 h2
      obtain ⟨h0, _, h500, _⟩ := hv
      constructor
      · have := le_pyRound (a := row.iLow) hlo
        omega
      · have := pyRound_le (b := row.iHigh) hhi
        omega

/-- C7 witness: at concentration 0 for PM2.5 the returned AQI is within
`[0, 500]`. -/
theorem calculate_aqi_in_range_witness :
    0 ≤ (AqiResult.mk 0 "Good" "#00E400" 0 "PM25").aqi ∧
    (AqiResult.mk 0 "Good" "#00E400" 0 "PM25").aqi ≤ 500 :=
  calculate_aqi_in_range 0 "pm25" (AqiResult.mk 0 "Good" "#00E400" 0 "PM25")
    (by with_unfolding_all decide)

/-- C8: `calculate_aqi` fails (with its only error, `UnknownPollutant`)
exactly when the lower-cased identifier is outside the closed set
{pm25, pm10, o3, no2}, and returns a result — never an error — exactly
when it is inside. -/
theorem calculate_aqi_unknown_iff (c : ℚ) (p : String) :
    ((∃ e, calculate_aqi c p = .error e) ↔
      strLower p ∉ ["pm25", "pm10", "o3", "no2"]) ∧
    ((∃ r, calculate_aqi c p = .ok r) ↔
      strLower p ∈ ["pm25", "pm10", "o3", "no2"]) := by
  rcases hb : breakpointsFor p with _ | bps
  · have hm : strLower p ∉ ["pm25", "pm10", "o3", "no2"] := by
      unfold breakpointsFor at hb
      split_ifs at hb
      simp_all
    rw [calculate_aqi, hb]
    simp [hm]
  · have hm : strLower p ∈ ["pm25", "pm10", "o3", "no2"] := by
      unfold breakpointsFor at hb
      split_ifs at hb <;> simp_all
    rw [calculate_aqi, hb]
    dsimp only
    rcases hf : findBreakpoint (if c < 0 then 0 else c) bps with _ | row <;>
      simp [hf, hm]

/-- C10: `calculate_aqi` is case-insensitive in the pollutant identifier —
any two spellings with the same lower-casing give the same aqi, category,
color and concentration — and the `pollutant` field of a returned result
is the upper-cased form of the supplied identifier. -/
theorem calculate_aqi_case_insensitive (c : ℚ) (p q : String)
    (h : strLower p = strLower q) :
    resultCore (calculate_aqi c p) = resultCore (calculate_aqi c q) ∧
    (∀ r, calculate_aqi c p = .ok r → r.pollutant = strUpper p) := by
  have hb : breakpointsFor p = breakpointsFor q := by
    unfold breakpointsFor; rw [h]
  constructor
  · rw [calculate_aqi, calculate_aqi, hb]
    rcases hq : breakpointsFor q with _ | bps
    · simp [resultCore]
    · dsimp only
      rcases hf : findBreakpoint (if c < 0 then 0 else c) bps with _ | row <;>
        simp [hf, resultCore]
  · intro r hr
    rw [calculate_aqi] at hr
    rcases hp : breakpointsFor p with _ | bps <;> rw [hp] at hr
    · exact absurd hr (by simp)
    · dsimp only at hr
      rcases hf : findBreakpoint (if c < 0 then 0 else c) bps with _ | row <;>
        rw [hf] at hr <;> simp only [Except.ok.injEq] at hr <;>
        · rw [← hr]

/-- C10 witness: `Pm25` and `pm25` agree on everything but the label, and
the label is the upper-cased input. -/
theorem calculate_aqi_case_insensitive_witness :
    resultCore (calculate_aqi 10 "Pm25") = resultCore (calculate_aqi 10 "pm25") ∧
    (∀ r, calculate_aqi 10 "Pm25" = .ok r → r.pollutant = strUpper "Pm25") :=
  calculate_aqi_case_insensitive 10 "Pm25" "pm25" (by decide)

/-- C1 counterexample: PM2.5 concentration 12.05 does not exceed the
highest published upper bound 500.4, yet no row's inclusive interval
contains it (it falls in the 12.0–12.1 gap) and `calculate_aqi` returns
the saturated hazardous result instead of interpolating. -/
theorem calculate_aqi_gap_counterexample :
    (0 : ℚ) ≤ 12.05 ∧ (12.05 : ℚ) ≤ 500.4 ∧
    (∀ r ∈ PM25_BREAKPOINTS, r.bpHigh ≤ (500.4 : ℚ)) ∧
    (∀ r ∈ PM25_BREAKPOINTS, ¬(r.bpLow ≤ (12.05 : ℚ) ∧ (12.05 : ℚ) ≤ r.bpHigh)) ∧
    calculate_aqi 12.05 "pm25" =
      .ok ⟨500, "Hazardous", "#7E0023", 12, "PM25"⟩ :=
  ⟨by norm_num, by norm_num, by with_unfolding_all decide,
   by with_unfolding_all decide, by with_unfolding_all decide⟩

/-- C1 (amended): for a known pollutant and non-negative concentration,
`calculate_aqi` returns the saturated result exactly when no row's
inclusive interval contains the concentration (which happens both above
the table and in the gaps between rows), and otherwise interpolates on
the first containing row. -/
theorem calculate_aqi_saturation (c : ℚ) (p : String)
    (bps : List BreakpointRow) (hb : breakpointsFor p = some bps)
    (hc : 0 ≤ c) :
    (findBreakpoint c bps = none ↔
      ∀ r ∈ bps, ¬(r.bpLow ≤ c ∧ c ≤ r.bpHigh)) ∧
    (findBreakpoint c bps = none →
      calculate_aqi c p = .ok ⟨500, "Hazardous", "#7E0023", round1 c, strUpper p⟩) ∧
    (∀ r, findBreakpoint c bps = some r →
      r ∈ bps ∧ r.bpLow ≤ c ∧ c ≤ r.bpHigh ∧
      calculate_aqi c p = .ok ⟨pyRound ((((r.iHigh : ℚ) - r.iLow) / (r.bpHigh - r.bpLow))
          * (c - r.bpLow) + r.iLow), r.category, r.color, round1 c, strUpper p⟩) := by
  have hcl : (if c < 0 then 0 else c) = c := if_neg (not_lt.mpr hc)
  refine ⟨findBreakpoint_eq_none_iff c bps, ?_, ?_⟩
  · intro hf
    rw [calculate_aqi, hb]
    dsimp only
    simp only [hcl, hf]
  · intro r hf
    obtain ⟨hmem, h1, h2⟩ := findBreakpoint_eq_some hf
    refine ⟨hmem, h1, h2, ?_⟩
    rw [calculate_aqi, hb]
    dsimp only
    simp only [hcl, hf]

/-- C1 witness: the amended characterization instantiated at the gap
concentration 12.05 and the PM2.5 table. -/
theorem calculate_aqi_saturation_witness :
    (findBreakpoint 12.05 PM25_BREAKPOINTS = none ↔
      ∀ r ∈ PM25_BREAKPOINTS, ¬(r.bpLow ≤ (12.05 : ℚ) ∧ (12.05 : ℚ) ≤ r.bpHigh)) ∧
    (findBreakpoint 12.05 PM25_BREAKPOINTS = none →
      calculate_aqi 12.05 "pm25" =
        .ok ⟨500, "Hazardous", "#7E0023", round1 12.05, strUpper "pm25"⟩) ∧
    (∀ r, findBreakpoint 12.05 PM25_BREAKPOINTS = some r →
      r ∈ PM25_BREAKPOINTS ∧ r.bpLow ≤ (12.05 : ℚ) ∧ (12.05 : ℚ) ≤ r.bpHigh ∧
      calculate_aqi 12.05 "pm25" = .ok ⟨pyRound ((((r.iHigh : ℚ) - r.iLow) / (r.bpHigh - r.bpLow))
          * ((12.05 : ℚ) - r.bpLow) + r.iLow), r.category, r.color, round1 12.05, strUpper "pm25"⟩) :=
  calculate_aqi_saturation 12.05 "pm25" PM25_BREAKPOINTS
    (by simp [breakpointsFor, strLower_pm25]) (by norm_num)

/-- Dropping entries cannot increase the number of valid readings. -/
theorem validCount_drop_le (k : ℕ) (l : List (Option ℚ)) :
    validCount (l.drop k) ≤ validCount l := by
  conv_rhs => rw [← List.take_append_drop k l]
  unfold validCount
  rw [List.filterMap_append, List.length_append]
  exact Nat.le_add_left _ _

/-- The three most recent readings of the 12-reading window are the three
most recent readings of the whole series. -/
theorem lastN_lastN (l : List (Option ℚ)) : lastN 3 (lastN 12 l) = lastN 3 l := by
  unfold lastN
  rw [List.drop_drop, List.length_drop]
  congr 1
  omega

/-- Valid readings of a constant all-present series. -/
theorem filterMap_id_replicate (n : ℕ) (v : ℚ) :
    (List.replicate n (some v)).filterMap id = List.replicate n v := by
  induction n with
  | zero => rfl
  | succ k ih => rw [List.replicate_succ, List.replicate_succ, List.filterMap_cons]; simp [ih]

/-- Python `min` of a constant nonempty list is its value. -/
theorem listMin_replicate (n : ℕ) (v : ℚ) : listMin (v :: List.replicate n v) = v := by
  show List.foldl min v (List.replicate n v) = v
  induction n with
  | zero => rfl
  | succ k ih => rw [List.replicate_succ, List.foldl_cons, min_self]; exact ih

/-- Python `max` of a constant nonempty list is its value. -/
theorem listMax_replicate (n : ℕ) (v : ℚ) : listMax (v :: List.replicate n v) = v := by
  show List.foldl max v (List.replicate n v) = v
  induction n with
  | zero => rfl
  | succ k ih => rw [List.replicate_succ, List.foldl_cons, max_self]; exact ih

/-- With weight 1 every position counts fully: the accumulation loop over a
constant all-present window returns `(v·n + a, n + b)` from start `(a, b)`. -/
theorem weightedSums_one_replicate_aux (v : ℚ) :
    ∀ (n s : ℕ) (acc : ℚ × ℚ),
      List.foldl
        (fun acc iv =>
          match iv.2 with
          | some x => (acc.1 + x * (1:ℚ) ^ iv.1, acc.2 + (1:ℚ) ^ iv.1)
          | none => acc)
        acc (List.enumFrom s (List.replicate n (some v)))
      = (acc.1 + v * n, acc.2 + n) := by
  intro n
  induction n with
  | zero => intro s acc; simp
  | succ k ih =>
      intro s acc
      rw [List.replicate_succ, List.enumFrom_cons, List.foldl_cons]
      dsimp only
      rw [ih (s+1)]
      simp only [one_pow, Prod.mk.injEq]
      constructor <;> (push_cast; ring)

/-- `weightedSums` with weight 1 over a constant all-present window. -/
theorem weightedSums_one_replicate (v : ℚ) (n : ℕ) :
    weightedSums 1 (List.replicate n (some v)) = (v * n, (n : ℚ)) := by
  unfold weightedSums
  rw [show (List.replicate n (some v)).enum
      = List.enumFrom 0 (List.replicate n (some v)) from rfl]
  rw [weightedSums_one_replicate_aux v n 0 (0, 0)]
  simp

/-- C3: on the 12-hour series `[25,27,30,28,26,29,31,27,26,28,30,29]` the
NowCast weight is `w = 25/31` (above 1/2, hence not clamped), position `i`
(0 = oldest) is weighted `w^i`, and the result is the weighted ratio
rounded to 1 decimal, which is exactly 27.5. -/
theorem nowcast_example_series :
    ((1 : ℚ)/2 < 25/31) ∧
    calculate_nowcast_pm25
        ([25, 27, 30, 28, 26, 29, 31, 27, 26, 28, 30, 29].map some)
      = some (round1
          ((25*(25/31 : ℚ)^0 + 27*(25/31)^1 + 30*(25/31)^2 + 28*(25/31)^3
            + 26*(25/31)^4 + 29*(25/31)^5 + 31*(25/31)^6 + 27*(25/31)^7
            + 26*(25/31)^8 + 28*(25/31)^9 + 30*(25/31)^10 + 29*(25/31)^11) /
           ((25/31 : ℚ)^0 + (25/31)^1 + (25/31)^2 + (25/31)^3 + (25/31)^4
            + (25/31)^5 + (25/31)^6 + (25/31)^7 + (25/31)^8 + (25/31)^9
            + (25/31)^10 + (25/31)^11))) ∧
    calculate_nowcast_pm25
        ([25, 27, 30, 28, 26, 29, 31, 27, 26, 28, 30, 29].map some)
      = some 27.5 :=
  ⟨by norm_num, by with_unfolding_all decide, by with_unfolding_all decide⟩

/-- C6 counterexample: a constant series whose value has two decimal
places is returned rounded to one decimal, not unchanged. -/
theorem nowcast_constant_counterexample :
    calculate_nowcast_pm25 [some 3.14, some 3.14] = some 3.1 ∧
    (3.1 : ℚ) ≠ 3.14 :=
  ⟨by with_unfolding_all decide, by norm_num⟩

/-- C6 (amended): on a constant all-present series of at least 2 readings,
NowCast returns the constant value rounded to 1 decimal; in particular it
returns the value itself whenever that value has at most one decimal
place. -/
theorem nowcast_constant_series (v : ℚ) (n : ℕ) (hn : 2 ≤ n) :
    calculate_nowcast_pm25 (List.replicate n (some v)) = some (round1 v) ∧
    (∀ k : ℤ, v = (k : ℚ) / 10 →
      calculate_nowcast_pm25 (List.replicate n (some v)) = some v) := by
  have hlen : (List.replicate n (some v)).length = n := List.length_replicate n _
  have hmain : calculate_nowcast_pm25 (List.replicate n (some v)) = some (round1 v) := by
    unfold calculate_nowcast_pm25
    rw [hlen, if_neg (by omega)]
    dsimp only
    have hvals : lastN 12 (List.replicate n (some v))
        = List.replicate (n - (n - 12)) (some v) := by
      unfold lastN
      rw [hlen, List.drop_replicate]
    set m := n - (n - 12) with hm
    have hm2 : 2 ≤ m := by omega
    have hrec : lastN 3 (List.replicate m (some v))
        = List.replicate (m - (m - 3)) (some v) := by
      unfold lastN
      rw [List.length_replicate, List.drop_replicate]
    set m3 := m - (m - 3) with hm3
    have hm32 : 2 ≤ m3 := by omega
    rw [hvals, hrec]

    rw [show validCount (List.replicate m3 (some v)) = m3 by
      unfold validCount; rw [filterMap_id_replicate, List.length_replicate]]
    rw [if_neg (by omega)]
    rw [filterMap_id_replicate, List.length_replicate, if_neg (by omega)]
    have hcons : List.replicate m v = v :: List.replicate (m - 1) v := by
      rw [← List.replicate_succ]
      congr 1
      omega
    have hmin : listMin (List.replicate m v) = v := by
      rw [hcons]; exact listMin_replicate _ v
    have hmax : listMax (List.replicate m v) = v := by
      rw [hcons]; exact listMax_replicate _ v
    rw [hmin, hmax]
    have hw : (if 0 < v then v / v else 1) = (1 : ℚ) := by
      split_ifs with h
      · exact div_self (ne_of_gt h)
      · rfl
    have hm0 : (m : ℚ) ≠ 0 := Nat.cast_ne_zero.mpr (by omega)
    rw [hw, if_neg (show ¬((1 : ℚ) < 1/2) by norm_num)]
    rw [weightedSums_one_replicate]
    dsimp only
    rw [if_neg hm0]
    rw [mul_div_assoc, div_self hm0, mul_one]
  refine ⟨hmain, ?_⟩
  intro k hk
  rw [hmain]
  congr 1
  rw [hk]
  unfold round1
  rw [div_mul_cancel₀ _ (by norm_num : (10 : ℚ) ≠ 0), pyRound_intCast]

/-- C6 witness: twelve readings of 25 come back as exactly 25. -/
theorem nowcast_constant_series_witness :
    calculate_nowcast_pm25 (List.replicate 12 (some 25)) = some (round1 25) ∧
    (∀ k : ℤ, (25 : ℚ) = (k : ℚ) / 10 →
      calculate_nowcast_pm25 (List.replicate 12 (some 25)) = some 25) :=
  nowcast_constant_series 25 12 (by norm_num)

/-- C9: "no result" is a value, never an exception: NowCast returns `none`
whenever fewer than 2 of the 3 most recent readings are present or fewer
than 2 readings of the 12-reading window are present (in particular on
`[None, None, 25]`), and the dominant-pollutant and station selectors
return empty results on empty input. -/
theorem no_result_is_value :
    (∀ hv : List (Option ℚ),
      validCount (lastN 3 hv) < 2 ∨ validCount (lastN 12 hv) < 2 →
      calculate_nowcast_pm25 hv = none) ∧
    calculate_nowcast_pm25 [none, none, some 25] = none ∧
    get_dominant_pollutant [] = (none, none) ∧
    (∀ now : ℚ, select_best_station [] now = none) := by
  refine ⟨?_, by with_unfolding_all decide, by decide, fun now => rfl⟩
  intro hv h
  have hlt : validCount (lastN 3 (lastN 12 hv)) < 2 := by
    rcases h with hc | hc
    · rw [lastN_lastN]; exact hc
    · exact lt_of_le_of_lt (by unfold lastN; exact validCount_drop_le _ _) hc
  unfold calculate_nowcast_pm25
  dsimp only
  by_cases h1 : hv.length < 2
  · rw [if_pos h1]
  · rw [if_neg h1, if_pos hlt]

/-- C9 witness: the NowCast part instantiated at `[None, None, 25]`, where
only one of the three most recent readings is present. -/
theorem no_result_is_value_witness :
    calculate_nowcast_pm25 [none, none, some 25] = none :=
  no_result_is_value.1 [none, none, some 25] (by with_unfolding_all decide)

/-- C4 counterexample: a station with a fresh, parsable `lastUpdated` but
no recognized pollutant scores `(0, 0, 0)`: its tertiary component is 0,
not the recency bonus `max(0, 24 − hoursSinceLastUpdated)` = 23. -/
theorem station_tertiary_counterexample :
    calculate_station_score ⟨[], .parsed 0⟩ 3600 = (0, 0, 0) ∧
    max (0 : ℚ) (24 - ((3600 : ℚ) - 0) / 3600) = 23 ∧
    (calculate_station_score ⟨[], .parsed 0⟩ 3600).2.2 ≠
      max (0 : ℚ) (24 - ((3600 : ℚ) - 0) / 3600) :=
  ⟨by with_unfolding_all decide, by norm_num, by with_unfolding_all decide⟩

/-- C4 (amended): for a station with at least one recognized pollutant the
tertiary score is `max(0, 24 − hoursSinceLastUpdated)` when `lastUpdated`
is present and parsable and 0 when it is missing or unparsable; a station
with no recognized pollutant scores `(0, 0, 0)` outright. -/
theorem station_tertiary_recency (st : Station) (now : ℚ) :
    (availablePollutants st ≠ [] →
      (∀ t, st.lastUpdated = .parsed t →
        (calculate_station_score st now).2.2 = max 0 (24 - (now - t) / 3600)) ∧
      ((st.lastUpdated = .missing ∨ st.lastUpdated = .unparsable) →
        (calculate_station_score st now).2.2 = 0)) ∧
    (availablePollutants st = [] → calculate_station_score st now = (0, 0, 0)) := by
  constructor
  · intro hne
    have hisE : (availablePollutants st).isEmpty = false := by
      cases h : availablePollutants st
      · exact absurd h hne
      · rfl
    constructor
    · intro t ht
      simp [calculate_station_score, hisE, ht]
    · intro hmu
      rcases hmu with hm | hm <;> simp [calculate_station_score, hisE, hm]
  · intro he
    simp [calculate_station_score, he]

/-- C4 witness: the recency branch at a recognized-pollutant station whose
timestamp parsed to one hour before `now`. -/
theorem station_tertiary_recency_witness :
    (∀ t, (Station.mk ["pm25"] (.parsed 0)).lastUpdated = .parsed t →
      (calculate_station_score (Station.mk ["pm25"] (.parsed 0)) 3600).2.2
        = max 0 (24 - ((3600 : ℚ) - t) / 3600)) ∧
    (((Station.mk ["pm25"] (.parsed 0)).lastUpdated = .missing ∨
      (Station.mk ["pm25"] (.parsed 0)).lastUpdated = .unparsable) →
      (calculate_station_score (Station.mk ["pm25"] (.parsed 0)) 3600).2.2 = 0) :=
  (station_tertiary_recency (Station.mk ["pm25"] (.parsed 0)) 3600).1
    (by with_unfolding_all decide)

/-- Lexicographic strictness is transitive. -/
theorem scoreLt_trans {a b c : ℕ × ℕ × ℚ} (h1 : scoreLt a b) (h2 : scoreLt b c) :
    scoreLt a c := by
  unfold scoreLt at h1 h2 ⊢
  rcases h1 with h1 | ⟨e1, h1⟩ <;> rcases h2 with h2 | ⟨e2, h2⟩
  · left; omega
  · left; omega
  · left; omega
  · right
    refine ⟨e1.trans e2, ?_⟩
    rcases h1 with h1 | ⟨f1, h1⟩ <;> rcases h2 with h2 | ⟨f2, h2⟩
    · left; omega
    · left; omega
    · left; omega
    · right; exact ⟨f1.trans f2, lt_trans h1 h2⟩

/-- Lexicographic comparison is total. -/
theorem scoreLt_total (a b : ℕ × ℕ × ℚ) :
    scoreLt a b ∨ a = b ∨ scoreLt b a := by
  unfold scoreLt
  rcases lt_trichotomy a.1 b.1 with h | h | h
  · exact Or.inl (Or.inl h)
  · rcases lt_trichotomy a.2.1 b.2.1 with h2 | h2 | h2
    · exact Or.inl (Or.inr ⟨h, Or.inl h2⟩)
    · rcases lt_trichotomy a.2.2 b.2.2 with h3 | h3 | h3
      · exact Or.inl (Or.inr ⟨h, Or.inr ⟨h2, h3⟩⟩)
      · refine Or.inr (Or.inl ?_)
        exact Prod.ext h (Prod.ext h2 h3)
      · exact Or.inr (Or.inr (Or.inr ⟨h.symm, Or.inr ⟨h2.symm, h3⟩⟩))
    · exact Or.inr (Or.inr (Or.inr ⟨h.symm, Or.inl h2⟩))
  · exact Or.inr (Or.inr (Or.inl h))

/-- Weak comparison is reflexive. -/
theorem scoreLe_refl (a : ℕ × ℕ × ℚ) : scoreLe a a := Or.inr rfl

/-- Not strictly greater means weakly smaller. -/
theorem scoreLe_of_not_lt {a b : ℕ × ℕ × ℚ} (h : ¬ scoreLt b a) : scoreLe a b := by
  rcases scoreLt_total a b with h1 | h1 | h1
  · exact Or.inl h1
  · exact Or.inr h1
  · exact absurd h1 h

/-- Strict-then-weak composition stays strict. -/
theorem scoreLt_of_lt_of_le {a b c : ℕ × ℕ × ℚ}
    (h1 : scoreLt a b) (h2 : scoreLe b c) : scoreLt a c := by
  rcases h2 with h2 | rfl
  · exact scoreLt_trans h1 h2
  · exact h1

/-- Weak comparison is transitive. -/
theorem scoreLe_trans {a b c : ℕ × ℕ × ℚ}
    (h1 : scoreLe a b) (h2 : scoreLe b c) : scoreLe a c := by
  rcases h1 with h1 | rfl
  · exact Or.inl (scoreLt_of_lt_of_le h1 h2)
  · exact h2

/-- The head of a stable descending insertion is the stronger of the
inserted element and the old head (ties keep the old head). -/
theorem insertDesc_head (x : (ℕ × ℕ × ℚ) × Station)
    (acc : List ((ℕ × ℕ × ℚ) × Station)) :
    (insertDesc x acc).head? = some (match acc.head? with
      | none => x
      | some y => if scoreLt y.1 x.1 then x else y) := by
  cases acc with
  | nil => rfl
  | cons y ys =>
      show (if scoreLt y.1 x.1 then x :: y :: ys else y :: insertDesc x ys).head?
        = some (if scoreLt y.1 x.1 then x else y)
      split_ifs <;> rfl

/-- Running the sort's insertion loop over scored stations keeps, at the
head, exactly the running best of the spec's selection fold. -/
theorem sortDesc_cons_head (now : ℚ) :
    ∀ (l : List Station) (b : Station) (acc : List ((ℕ × ℕ × ℚ) × Station)),
      acc.head? = some (calculate_station_score b now, b) →
      (List.foldl (fun a x => insertDesc x a) acc
          (l.map (fun s => (calculate_station_score s now, s)))).head?
        = some (calculate_station_score (l.foldl (stepSel now) b) now,
                l.foldl (stepSel now) b) := by
  intro l
  induction l with
  | nil => intro b acc hacc; simpa using hacc
  | cons c cs ih =>
      intro b acc hacc
      rw [List.map_cons, List.foldl_cons, List.foldl_cons]
      apply ih (stepSel now b c)
      rw [insertDesc_head, hacc]
      dsimp only
      unfold stepSel
      split_ifs <;> rfl

/-- The sort-then-head selection of `select_best_station` agrees with the
spec's first-maximal selection fold. -/
theorem select_best_station_eq_spec (stations : List Station) (now : ℚ) :
    select_best_station stations now = specSelectBest stations now := by
  cases stations with
  | nil => rfl
  | cons s rest =>
      unfold select_best_station specSelectBest
      rw [List.isEmpty_cons, if_neg (by simp)]
      rw [List.map_cons]
      dsimp only
      unfold sortDesc
      rw [List.foldl_cons]
      rw [sortDesc_cons_head now rest s
        (insertDesc (calculate_station_score s now, s) []) rfl]
      rfl

/-- The spec's selection fold returns a station that weakly outscores the
start and everything in the list, and that is first among maximal ones. -/
theorem foldl_stepSel_spec (now : ℚ) :
    ∀ (l : List Station) (s : Station),
      scoreLe (calculate_station_score s now)
        (calculate_station_score (l.foldl (stepSel now) s) now) ∧
      (∀ t ∈ l, scoreLe (calculate_station_score t now)
        (calculate_station_score (l.foldl (stepSel now) s) now)) ∧
      (l.foldl (stepSel now) s = s ∨
        ∃ l₁ l₂, l = l₁ ++ l.foldl (stepSel now) s :: l₂ ∧
          scoreLt (calculate_station_score s now)
            (calculate_station_score (l.foldl (stepSel now) s) now) ∧
          ∀ t ∈ l₁, scoreLt (calculate_station_score t now)
            (calculate_station_score (l.foldl (stepSel now) s) now)) := by
  intro l
  induction l with
  | nil =>
      intro s
      exact ⟨scoreLe_refl _, by simp, Or.inl rfl⟩
  | cons c rest ih =>
      intro s
      rw [List.foldl_cons]
      by_cases hsc : scoreLt (calculate_station_score s now)
          (calculate_station_score c now)
      · have hstep : stepSel now s c = c := by unfold stepSel; rw [if_pos hsc]
        rw [hstep]
        obtain ⟨hinit, hall, hfirst⟩ := ih c
        refine ⟨Or.inl (scoreLt_of_lt_of_le hsc hinit), ?_, ?_⟩
        · intro t ht
          rcases List.mem_cons.mp ht with rfl | ht
          · exact hinit
          · exact hall t ht
        · rcases hfirst with heq | ⟨l₁, l₂, hsplit, hlt, hstrict⟩
          · right
            refine ⟨[], rest, by simp [heq], ?_, by simp⟩
            rw [heq]; exact hsc
          · right
            refine ⟨c :: l₁, l₂, by rw [List.cons_append, ← hsplit], scoreLt_trans hsc hlt, ?_⟩
            intro t ht
            rcases List.mem_cons.mp ht with rfl | ht
            · exact hlt
            · exact hstrict t ht
      · have hstep : stepSel now s c = s := by unfold stepSel; rw [if_neg hsc]
        rw [hstep]
        obtain ⟨hinit, hall, hfirst⟩ := ih s
        refine ⟨hinit, ?_, ?_⟩
        · intro t ht
          rcases List.mem_cons.mp ht with rfl | ht
          · exact scoreLe_trans (scoreLe_of_not_lt hsc) hinit
          · exact hall t ht
        · rcases hfirst with heq | ⟨l₁, l₂, hsplit, hlt, hstrict⟩
          · exact Or.inl heq
          · right
            refine ⟨c :: l₁, l₂, by rw [List.cons_append, ← hsplit], hlt, ?_⟩
            intro t ht
            rcases List.mem_cons.mp ht with rfl | ht
            · rcases scoreLt_total (calculate_station_score t now)
                (calculate_station_score (rest.foldl (stepSel now) s) now)
                with hx | hx | hx
              · exact hx
              · rw [← hx] at hlt
                exact absurd hlt hsc
              · exact absurd (scoreLt_trans hlt hx) hsc
            · exact hstrict t ht

/-- C5: on nonempty input `select_best_station` returns a station whose
`(primary, secondary, tertiary)` score is lexicographically maximal, and
it is the first-encountered such station (everything before it scores
strictly lower); in particular a station with only PM2.5 updated 1 hour
ago is outranked by one with PM2.5+PM10+O3 updated 20 hours ago. -/
theorem select_best_station_lex_max :
    (∀ (now : ℚ) (l : List Station), l ≠ [] →
      ∃ r, select_best_station l now = some r ∧
        (∀ t ∈ l, scoreLe (calculate_station_score t now)
          (calculate_station_score r now)) ∧
        (∃ l₁ l₂, l = l₁ ++ r :: l₂ ∧
          ∀ t ∈ l₁, scoreLt (calculate_station_score t now)
            (calculate_station_score r now))) ∧
    (∀ now : ℚ, select_best_station
        [⟨["pm25"], .parsed (now - 3600)⟩,
         ⟨["pm25", "pm10", "o3"], .parsed (now - 72000)⟩] now
      = some ⟨["pm25", "pm10", "o3"], .parsed (now - 72000)⟩) := by
  constructor
  · intro now l hne
    match l with
    | [] => exact absurd rfl hne
    | s :: rest =>
        refine ⟨rest.foldl (stepSel now) s, ?_, ?_, ?_⟩
        · rw [select_best_station_eq_spec]
          rfl
        · obtain ⟨hinit, hall, _⟩ := foldl_stepSel_spec now rest s
          intro t ht
          rcases List.mem_cons.mp ht with rfl | ht
          · exact hinit
          · exact hall t ht
        · obtain ⟨_, _, hfirst⟩ := foldl_stepSel_spec now rest s
          rcases hfirst with heq | ⟨l₁, l₂, hsplit, hlt, hstrict⟩
          · exact ⟨[], rest, by simp [heq], by simp⟩
          · refine ⟨s :: l₁, l₂, by rw [List.cons_append, ← hsplit], ?_⟩
            intro t ht
            rcases List.mem_cons.mp ht with rfl | ht
            · exact hlt
            · exact hstrict t ht
  · intro now
    have hA : calculate_station_score ⟨["pm25"], .parsed (now - 3600)⟩ now
        = (10, 1, (23 : ℚ)) := by
      have h1 : now - (now - 3600) = (3600 : ℚ) := by ring
      show (10, 1, max 0 (24 - (now - (now - 3600)) / 3600)) = (10, 1, (23 : ℚ))
      rw [h1]
      norm_num
    have hB : calculate_station_score
        ⟨["pm25", "pm10", "o3"], .parsed (now - 72000)⟩ now
        = (10, 3, (4 : ℚ)) := by
      have h1 : now - (now - 72000) = (72000 : ℚ) := by ring
      show (10, 3, max 0 (24 - (now - (now - 72000)) / 3600)) = (10, 3, (4 : ℚ))
      rw [h1]
      norm_num
    rw [select_best_station_eq_spec]
    show some (stepSel now ⟨["pm25"], .parsed (now - 3600)⟩
        ⟨["pm25", "pm10", "o3"], .parsed (now - 72000)⟩) = _
    unfold stepSel
    rw [hA, hB, if_pos]
    exact Or.inr ⟨rfl, Or.inl (by norm_num)⟩

/-- C5 witness: the concrete two-station comparison at `now = 0`. -/
theorem select_best_station_lex_max_witness :
    select_best_station
        [⟨["pm25"], .parsed ((0 : ℚ) - 3600)⟩,
         ⟨["pm25", "pm10", "o3"], .parsed ((0 : ℚ) - 72000)⟩] 0
      = some ⟨["pm25", "pm10", "o3"], .parsed ((0 : ℚ) - 72000)⟩ :=
  select_best_station_lex_max.2 0

end AirChat
